import Mathlib

/-!
# FreshView core — shallow embedding

A shallow embedding of the two core components of the FreshView browser
extension (`src/js/video.js` and the Extractor file) together with proofs
about the claimed behaviour.

Conventions used throughout:

* A DOM node is a `DomTree` node carrying `ElemData`; child nodes (all of
  them, elements and text nodes alike, since `previousSibling` walks over
  every child node) are a `DomForest`.
* `ElemData.idProp` models the JavaScript `node.id` property: `none` when
  the property is `undefined` (the document node), `some s` for elements,
  where `s = ""` when the element has no `id` attribute.
* JavaScript values `undefined | string` are modelled as `Option String`;
  a thrown `TypeError` is modelled as an outer `Option` layer being `none`
  (so `Option (Option String)`: `none` = throw, `some none` = returns
  `undefined`, `some (some s)` = returns the string `s`).
* Positions inside a tree are lists of child indices from the root; the
  index of a node in its parent's child list equals its number of
  preceding siblings.
-/

/-- Truthiness of a JavaScript `undefined | string` value:
`undefined` and the empty string are falsy. -/
def jsTruthyStr : Option String → Bool
  | none => false
  | some s => s != ""

/-- Truthiness of a JavaScript `undefined | boolean` value. -/
def jsTruthyBool : Option Bool → Bool
  | some true => true
  | _ => false

/-- Character class of the regex `/v=([a-zA-Z0-9_\-]+)/` in
`Video.deriveURL` (ASCII letters, digits, underscore, hyphen). -/
def isVIDChar (c : Char) : Bool :=
  ('a' ≤ c && c ≤ 'z') || ('A' ≤ c && c ≤ 'Z') || c.isDigit || c == '_' || c == '-'

/-- Model of `String.prototype.match` with the regex `/v=([a-zA-Z0-9_\-]+)/`:
scan left to right for the first position where the literal `v=` is
followed by at least one `isVIDChar` character, and return the maximal
run of such characters (the capture group, `matches[1]`).  Returns
`none` when the regex does not match (JS returns `null`, and
`Video.deriveURL` then returns `undefined`). -/
def matchV : List Char → Option String
  | [] => none
  | c :: rest =>
    if c == 'v' then
      match rest with
      | '=' :: rest2 =>
        let run := rest2.takeWhile isVIDChar
        if run.isEmpty then matchV rest else some ⟨run⟩
      | _ => matchV rest
    else
      matchV rest

/-- Whitespace skipped by JavaScript `parseInt`. -/
def isJsSpace (c : Char) : Bool :=
  c == ' ' || c == '\t' || c == '\n' || c == '\r'

/-- The maximal leading run of decimal digits, `none` when there is none
(`parseInt` then yields `NaN`). -/
def leadDigits (l : List Char) : Option Nat :=
  let ds := l.takeWhile Char.isDigit
  if ds.isEmpty then none
  else some (ds.foldl (fun acc c => acc * 10 + (c.toNat - '0'.toNat)) 0)

/-- JavaScript `parseInt(s, 10)`: skip leading whitespace, accept an
optional sign, parse the maximal digit run; `none` models `NaN`. -/
def parseIntJS (s : String) : Option Int :=
  match s.data.dropWhile isJsSpace with
  | '-' :: rest => (leadDigits rest).map (fun n => -(n : Int))
  | '+' :: rest => (leadDigits rest).map (fun n => (n : Int))
  | rest => (leadDigits rest).map (fun n => (n : Int))

/-- JavaScript `progress >= threshold` where `progress` may be `NaN`
(modelled `none`): every comparison with `NaN` is false. -/
def jsGE (p : Option Int) (t : Int) : Bool :=
  match p with
  | none => false
  | some v => decide (t ≤ v)

/-! ## The DOM model -/

/-- The data carried by one DOM node.  `idProp` models the `id`
property (see the module docstring); `attrs` backs `getAttribute`;
`styleDisplay` and `styleWidth` model the inline `style.display` and
`style.width` strings (`""` when not set, as in the DOM). -/
structure ElemData where
  tag : String
  idProp : Option String
  classes : List String
  attrs : List (String × String)
  styleDisplay : String
  styleWidth : String
deriving DecidableEq, Repr

mutual
/-- A DOM node: its data and its (ordered) child nodes. -/
inductive DomTree where
  | mk : ElemData → DomForest → DomTree
deriving DecidableEq
/-- An ordered list of sibling DOM nodes. -/
inductive DomForest where
  | nil : DomForest
  | cons : DomTree → DomForest → DomForest
deriving DecidableEq
end

def DomTree.data : DomTree → ElemData
  | .mk d _ => d

def DomTree.kids : DomTree → DomForest
  | .mk _ f => f

/-- The `i`-th child node (the node with `i` preceding siblings). -/
def DomForest.get : DomForest → Nat → Option DomTree
  | .nil, _ => none
  | .cons t _, 0 => some t
  | .cons _ ts, n + 1 => ts.get n

/-- Replace the `i`-th child node (identity when out of range). -/
def DomForest.set : DomForest → Nat → DomTree → DomForest
  | .nil, _, _ => .nil
  | .cons _ ts, 0, x => .cons x ts
  | .cons t ts, n + 1, x => .cons t (ts.set n x)

/-- Model of `element.getAttribute(name)`: `none` models the JS `null`. -/
def getAttr (e : ElemData) (name : String) : Option String :=
  (e.attrs.find? (fun p => p.1 == name)).map (fun p => p.2)

/-- A compound CSS selector of the shapes used by the source:
`tag`, optionally `#id`, and a list of `.class` requirements. -/
structure Selector where
  tag : String
  idSel : Option String
  classesSel : List String

/-- Whether an element matches a compound selector. -/
def matchesSel (s : Selector) (e : ElemData) : Bool :=
  e.tag == s.tag &&
  (match s.idSel with
   | none => true
   | some i => e.idProp == some i) &&
  s.classesSel.all (fun c => e.classes.contains c)

/-- Whether an element matches at least one selector of a list. -/
def matchesAny (sels : List Selector) (e : ElemData) : Bool :=
  sels.any (fun s => matchesSel s e)

mutual
/-- First node (the node itself or a descendant) matching `p`,
in document (preorder) order. -/
def qTree (p : ElemData → Bool) : DomTree → Option ElemData
  | .mk d cs => if p d then some d else qList p cs
/-- First node of a forest (or of its subtrees) matching `p`,
in document (preorder) order. -/
def qList (p : ElemData → Bool) : DomForest → Option ElemData
  | .nil => none
  | .cons t ts =>
    match qTree p t with
    | some e => some e
    | none => qList p ts
end

/-- Model of `element.querySelector(":scope sel1, :scope sel2, ...")`: the first
**strict descendant** of `element`, in document order, matching the
predicate (the scope element itself is excluded by the descendant
combinator). -/
def qselFirst (p : ElemData → Bool) (el : DomTree) : Option ElemData :=
  qList p el.kids

mutual
/-- All nodes of a subtree in document (preorder) order. -/
def preTree : DomTree → List ElemData
  | .mk d cs => d :: preForest cs
/-- All nodes of a forest in document (preorder) order. -/
def preForest : DomForest → List ElemData
  | .nil => []
  | .cons t ts => preTree t ++ preForest ts
end

/-- The strict descendants of an element in document order. -/
def descendantsOf (el : DomTree) : List ElemData :=
  preForest el.kids

/-- The node reached from `root` by following a list of child indices. -/
def nodeAt : DomTree → List Nat → Option DomTree
  | t, [] => some t
  | t, i :: rest =>
    match t.kids.get i with
    | none => none
    | some c => nodeAt c rest

/-- For each node strictly below `root` along the position, outermost
first: its `id` property and its number of preceding siblings.
`none` when the position is not valid in the tree. -/
def levelsAlong : DomTree → List Nat → Option (List (Option String × Nat))
  | _, [] => some []
  | t, i :: rest =>
    match t.kids.get i with
    | none => none
    | some c => (levelsAlong c rest).map (fun ls => (c.data.idProp, i) :: ls)

/-- Overwrite `style.display` of an element. -/
def withDisplay (e : ElemData) (s : String) : ElemData :=
  { e with styleDisplay := s }

/-- Model of `node.style.display = s` for the node at the given position
(identity when the position is invalid). -/
def setDisplayAt : DomTree → List Nat → String → DomTree
  | t, [], s => .mk (withDisplay t.data s) t.kids
  | t, i :: rest, s =>
    match t.kids.get i with
    | none => t
    | some c => .mk t.data (t.kids.set i (setDisplayAt c rest s))

/-! ## The Video component (`src/js/video.js`) -/

/-- The anchor selector list of `Video.deriveURL`, in source order
(the comments name the page layout each selector targets). -/
def urlSelectors : List Selector :=
  [ -- Grid
    ⟨"a", some "video-title", ["yt-simple-endpoint", "style-scope", "ytd-grid-video-renderer"]⟩,
    -- Home (OLD)
    ⟨"a", some "video-title-link", ["yt-simple-endpoint", "style-scope", "ytd-rich-grid-media"]⟩,
    -- Playlist page
    ⟨"a", none, ["yt-simple-endpoint", "style-scope", "ytd-playlist-video-renderer"]⟩,
    -- Playlist panel
    ⟨"a", none, ["yt-simple-endpoint", "style-scope", "ytd-playlist-panel-video-renderer"]⟩,
    -- Recommendations
    ⟨"a", none, ["yt-lockup-metadata-view-model-wiz__title"]⟩,
    -- Recommendations (OLD)
    ⟨"a", none, ["yt-simple-endpoint", "style-scope", "ytd-compact-video-renderer"]⟩,
    -- Search
    ⟨"a", some "video-title", ["yt-simple-endpoint", "style-scope", "ytd-video-renderer"]⟩,
    -- NEW: YouTube homepage (yt-lockup-view-model)
    ⟨"a", none, ["yt-lockup-view-model__title"]⟩,
    -- NEW fallback: homepage thumbnail link
    ⟨"a", none, ["yt-lockup-view-model__content-image"]⟩ ]

/-- The progress-bar selector list of `Video.getViewed`. -/
def viewedSelectors : List Selector :=
  [ -- Recommendations
    ⟨"div", none, ["ytThumbnailOverlayProgressBarHostWatchedProgressBarSegment"]⟩,
    -- everywhere else
    ⟨"div", some "progress", ["style-scope", "ytd-thumbnail-overlay-resume-playback-renderer"]⟩ ]

/-- Model of `Video.deriveURL()`.  The selectors are joined with `", "` into one
`querySelector` call, so the first matching **descendant in document
order** is taken; its `href` attribute is then matched against
`/v=([a-zA-Z0-9_\-]+)/`.  Outer `none` models the `TypeError` thrown by
`href.match` when the matched anchor has no `href` attribute
(`getAttribute` returns `null`); no claim touches that case. -/
def deriveURL (el : DomTree) : Option (Option String) :=
  match qselFirst (matchesAny urlSelectors) el with
  | none => some none
  | some a =>
    match getAttr a "href" with
    | none => none
    | some href => some (matchV href.data)

/-- The accumulation loop of `Video.derivePath()`:
`path = "/" + index + path`, run over the counted levels from the
innermost (the wrapped element) outwards. -/
def buildPathLoop : List (Option String × Nat) → String → String
  | [], path => path
  | (_, i) :: rest, path => buildPathLoop rest ("/" ++ toString i ++ path)

/-- Model of `Video.derivePath()`: starting from the wrapped element, walk up
through parents while `node.id !== undefined`, prepending `"/" + index`
for the number of preceding siblings at each visited level.  Outer
`none` models the `TypeError` the loop hits when it runs past a root
whose `id` property is defined (`null.id`), or an invalid position. -/
def derivePath (root : DomTree) (pos : List Nat) : Option String :=
  match levelsAlong root pos with
  | none => none
  | some ls =>
    let rls := ls.reverse
    let counted := rls.takeWhile (fun p => p.1.isSome)
    if counted.length = rls.length then
      match root.data.idProp with
      | none => some (buildPathLoop counted "/")
      | some _ => none
    else
      some (buildPathLoop counted "/")

/-- The result of `Video.fetchID()` for the element at `pos` in `root`:
`legal = url && path`, and the ID is `path + url` when `legal` is
truthy, `undefined` otherwise.  Outer `none` propagates a throw (or an
invalid position, unreachable for a constructed Video). -/
def fetchIDRes (root : DomTree) (pos : List Nat) : Option (Option String) :=
  match nodeAt root pos with
  | none => none
  | some el =>
    match deriveURL el with
    | none => none
    | some url =>
      match derivePath root pos with
      | none => none
      | some path =>
        some (if jsTruthyStr url && jsTruthyStr (some path)
              then some (path ++ url.getD "")
              else none)

/-- The mutable state of a `Video` object: the tree it lives in, the
position of its wrapped element, and the four instance fields set by
the constructor. -/
structure VideoState where
  root : DomTree
  pos : List Nat
  display : String
  id : Option String
  title : Option String
  viewed : Option Bool

/-- Model of `new Video(element)` for the element at `pos` in `root`: captures
`element.style.display` and initialises `id`, `title`, `viewed` to
`undefined`. -/
def mkVideo (root : DomTree) (pos : List Nat) : Option VideoState :=
  (nodeAt root pos).map fun el =>
    { root := root, pos := pos, display := el.data.styleDisplay,
      id := none, title := none, viewed := none }

/-- Model of `Video.fetchID()` with its state update: stores the result in
`this.id` and returns it.  Outer `none` models a throw (the field is
then left unchanged because the JS assignment is never reached). -/
def fetchIDV (v : VideoState) : Option (VideoState × Option String) :=
  match fetchIDRes v.root v.pos with
  | none => none
  | some r => some ({ v with id := r }, r)

/-- Model of `Video.getID()`: `return this.id || this.fetchID();`. -/
def getIDV (v : VideoState) : Option (VideoState × Option String) :=
  if jsTruthyStr v.id then some (v, v.id) else fetchIDV v

/-- The value returned by `Video.getViewed(threshold)` for a video
wrapping `el`: `undefined` when no progress bar is found, otherwise
`parseInt(bar.style.width.slice(0, -1), 10) >= threshold`. -/
def getViewedRes (el : DomTree) (t : Int) : Option Bool :=
  match qselFirst (matchesAny viewedSelectors) el with
  | none => none
  | some bar => some (jsGE (parseIntJS (bar.styleWidth.dropRight 1)) t)

/-- Model of `Video.getViewed(threshold)` with its state update: when no bar is
found the method returns `undefined` **before** the assignment to
`this.viewed`, so the field is written only in the found case. -/
def getViewedV (v : VideoState) (t : Int) : VideoState × Option Bool :=
  match nodeAt v.root v.pos with
  | none => (v, none)
  | some el =>
    match qselFirst (matchesAny viewedSelectors) el with
    | none => (v, none)
    | some bar =>
      let res := jsGE (parseIntJS (bar.styleWidth.dropRight 1)) t
      ({ v with viewed := some res }, some res)

/-- Model of `Video.hide()`: `this.element.style.display = "none"`. -/
def hideV (v : VideoState) : VideoState :=
  { v with root := setDisplayAt v.root v.pos "none" }

/-- Model of `Video.show()`: `this.element.style.display = this.display`. -/
def showV (v : VideoState) : VideoState :=
  { v with root := setDisplayAt v.root v.pos v.display }

/-! ## The Extractor component -/

/-- An `Extractor` holds a JS `Set` of subextractor functions.  A JS
`Set` iterates in insertion order and deduplicates by reference, so it
is modelled as a duplicate-free list of keys of an arbitrary type `κ`
with decidable (reference) equality; a subextractor's behaviour is
supplied separately as an interpretation `κ → DomTree → List DomTree`. -/
structure Extractor (κ : Type) where
  subextractors : List κ

namespace Extractor

/-- Model of `new Extractor()`: the empty registry. -/
def empty (κ : Type) : Extractor κ := ⟨[]⟩

/-- Model of `insert(subextractor)`: `Set.add` — appends unless already present. -/
def insert {κ : Type} [DecidableEq κ] (e : Extractor κ) (s : κ) : Extractor κ :=
  if s ∈ e.subextractors then e else ⟨e.subextractors ++ [s]⟩

/-- Model of `remove(subextractor)`: `Set.delete` — removes the key if present. -/
def remove {κ : Type} [DecidableEq κ] (e : Extractor κ) (s : κ) : Extractor κ :=
  ⟨e.subextractors.erase s⟩

/-- Model of `extract(element, threshold)`: concatenate every registered
subextractor's matches, wrap each element as a fresh Video, and keep
those whose `getViewed(threshold)` is truthy. -/
def extract {κ : Type} (interp : κ → DomTree → List DomTree)
    (e : Extractor κ) (root : DomTree) (t : Int) : List DomTree :=
  ((e.subextractors.map (fun s => interp s root)).flatten).filter
    (fun el => jsTruthyBool (getViewedRes el t))

end Extractor

/-! ## Claim-wording models and concrete documents -/

/-- Modelled from the claim wording of C1 (not from the source): try each
selector of `deriveURL`'s list separately, in list order; the first selector
with a structural match in the subtree supplies the element, even when an
element matching a later selector precedes it in document order. -/
def firstBySelectorOrder : List Selector → DomTree → Option ElemData
  | [], _ => none
  | s :: rest, el =>
    match qselFirst (fun e => matchesSel s e) el with
    | some a => some a
    | none => firstBySelectorOrder rest el

/-- The claimed form of `deriveURL`: selector-priority order. -/
def deriveURLSpecC1 (el : DomTree) : Option (Option String) :=
  match firstBySelectorOrder urlSelectors el with
  | none => some none
  | some a =>
    match getAttr a "href" with
    | none => none
    | some href => some (matchV href.data)

/-- Whether a level of the ancestor walk carries an identifying `id`
attribute (a present, non-empty `id`). -/
def hasIdAttr : Option String → Bool
  | some s => s != ""
  | none => false

/-- Modelled from the claim wording of C5 (not from the source): count
preceding siblings at exactly those ancestor levels that have no
identifying attribute, assembling the same kind of slash-separated path. -/
def derivePathSpecC5 (root : DomTree) (pos : List Nat) : Option String :=
  (levelsAlong root pos).map (fun ls =>
    buildPathLoop ((ls.filter (fun p => !hasIdAttr p.1)).reverse) "/")

-- ===== concrete documents =====

def anchorGridData : ElemData :=
  ⟨"a", some "video-title",
   ["yt-simple-endpoint", "style-scope", "ytd-grid-video-renderer"],
   [("href", "/watch?v=abc123&t=5s")], "", ""⟩

def bar50Data : ElemData :=
  ⟨"div", some "progress",
   ["style-scope", "ytd-thumbnail-overlay-resume-playback-renderer"],
   [], "", "50%"⟩

def bar49Data : ElemData :=
  ⟨"div", some "progress",
   ["style-scope", "ytd-thumbnail-overlay-resume-playback-renderer"],
   [], "", "49%"⟩

/-- A grid video entry: an anchor with a watch URL and a half-watched
progress bar, with inline display "block". -/
def containerEx : DomTree :=
  .mk ⟨"div", some "", [], [], "block", ""⟩
    (.cons (.mk anchorGridData .nil) (.cons (.mk bar50Data .nil) .nil))

/-- A video entry whose progress bar reads 49%. -/
def container49Ex : DomTree :=
  .mk ⟨"div", some "", [], [], "", ""⟩
    (.cons (.mk bar49Data .nil) .nil)

/-- A document holding `containerEx` as its only child. -/
def docEx : DomTree :=
  .mk ⟨"#document", none, [], [], "", ""⟩ (.cons containerEx .nil)

/-- A video entry with no anchor and no progress bar. -/
def plainDivEx : DomTree := .mk ⟨"div", some "", [], [], "", ""⟩ .nil

def docPlainEx : DomTree :=
  .mk ⟨"#document", none, [], [], "", ""⟩ (.cons plainDivEx .nil)

/-- A Video whose cached `viewed` is `true` but whose subtree (after a
DOM mutation) no longer holds a progress bar. -/
def vC2 : VideoState :=
  { root := docPlainEx, pos := [0], display := "", id := none,
    title := none, viewed := some true }

/-- Anchor matching only the fifth selector (Recommendations), placed
**before** an anchor matching the first selector (Grid). -/
def anchorLaterData : ElemData :=
  ⟨"a", some "", ["yt-lockup-metadata-view-model-wiz__title"],
   [("href", "/watch?v=later123")], "", ""⟩

def anchorGrid456Data : ElemData :=
  ⟨"a", some "video-title",
   ["yt-simple-endpoint", "style-scope", "ytd-grid-video-renderer"],
   [("href", "/watch?v=grid456")], "", ""⟩

def elC1 : DomTree :=
  .mk ⟨"div", some "", [], [], "", ""⟩
    (.cons (.mk anchorLaterData .nil) (.cons (.mk anchorGrid456Data .nil) .nil))

/-- Ancestor chain for C5: a container **with** an identifying id
attribute, whose second child is the wrapped element. -/
def docC5 : DomTree :=
  .mk ⟨"#document", none, [], [], "", ""⟩
    (.cons (.mk ⟨"div", some "container", [], [], "", ""⟩
      (.cons (.mk ⟨"span", some "", [], [], "", ""⟩ .nil)
        (.cons (.mk ⟨"div", some "", [], [], "", ""⟩ .nil) .nil))) .nil)

def pathConcat : List (Option String × Nat) → String
  | [] => ""
  | p :: rest => toString p.2 ++ "/" ++ pathConcat rest

def vEx : VideoState :=
  { root := docEx, pos := [0], display := "block", id := none,
    title := none, viewed := none }

def vC6 : VideoState :=
  { root := docPlainEx, pos := [0], display := "", id := none,
    title := none, viewed := none }

def vMemoEx : VideoState := { vEx with id := some "/0/abc123" }

/-! ## Helper lemmas -/

mutual
theorem qTree_eq_find (p : ElemData → Bool) : (t : DomTree) → qTree p t = (preTree t).find? p
  | .mk d cs => by
    cases h : p d
    · simp [qTree, preTree, h, List.find?_cons, qList_eq_find p cs]
    · simp [qTree, preTree, h, List.find?_cons]
theorem qList_eq_find (p : ElemData → Bool) : (f : DomForest) → qList p f = (preForest f).find? p
  | .nil => by simp [qList, preForest, List.find?]
  | .cons t ts => by
    rw [qList, preForest, List.find?_append, qTree_eq_find p t, qList_eq_find p ts]
    cases (preTree t).find? p <;> simp [Option.or]
end

theorem matchV_ne_empty (l : List Char) : ∀ s, matchV l = some s → s ≠ "" := by
  induction l with
  | nil => intro s; simp [matchV]
  | cons c rest ih =>
    intro s
    simp only [matchV]
    split
    · split
      · split
        · exact ih s
        · next hne =>
          intro h
          injection h with h
          subst h
          intro hemp
          rw [String.ext_iff] at hemp
          simp at hemp
          simp [hemp] at hne
      · exact ih s
    · exact ih s

theorem buildPathLoop_append (l1 l2 : List (Option String × Nat)) (acc : String) :
    buildPathLoop (l1 ++ l2) acc = buildPathLoop l2 (buildPathLoop l1 acc) := by
  induction l1 generalizing acc with
  | nil => rfl
  | cons x t ih => cases x with | mk a b => simp [buildPathLoop, ih]

theorem buildPathLoop_closed (l : List (Option String × Nat)) :
    buildPathLoop l.reverse "/" = "/" ++ pathConcat l := by
  induction l with
  | nil => simp [buildPathLoop, pathConcat]
  | cons x t ih =>
    rw [List.reverse_cons, buildPathLoop_append, ih]
    cases x with | mk a b =>
    simp [buildPathLoop, pathConcat, String.append_assoc]

theorem buildPathLoop_shape (l : List (Option String × Nat)) (acc m1 m2 : String)
    (h1 : acc = "/" ++ m1) (h2 : acc = m2 ++ "/") :
    ∃ n1 n2, buildPathLoop l acc = "/" ++ n1 ∧ buildPathLoop l acc = n2 ++ "/" := by
  induction l generalizing acc m1 m2 with
  | nil => exact ⟨m1, m2, h1, h2⟩
  | cons x t ih =>
    cases x with | mk a b =>
    rw [buildPathLoop]
    exact ih ("/" ++ toString b ++ acc) (toString b ++ acc) ("/" ++ toString b ++ m2)
      (by simp [String.append_assoc]) (by rw [h2]; simp [String.append_assoc])

theorem forest_get_set : (f : DomForest) → (i : Nat) → (c x : DomTree) →
    f.get i = some c → (f.set i x).get i = some x
  | .nil, i, c, x => by simp [DomForest.get]
  | .cons t ts, 0, c, x => by simp [DomForest.set, DomForest.get]
  | .cons t ts, n + 1, c, x => by
    simp only [DomForest.get, DomForest.set]
    exact forest_get_set ts n c x

theorem forest_set_set : (f : DomForest) → (i : Nat) → (x y : DomTree) →
    (f.set i x).set i y = f.set i y
  | .nil, i, x, y => rfl
  | .cons t ts, 0, x, y => rfl
  | .cons t ts, n + 1, x, y => by
    simp only [DomForest.set]
    rw [forest_set_set ts n x y]

theorem forest_set_get_self : (f : DomForest) → (i : Nat) → (c : DomTree) →
    f.get i = some c → f.set i c = f
  | .nil, i, c => by simp [DomForest.get]
  | .cons t ts, 0, c => by
    intro h
    simp only [DomForest.get] at h
    injection h with h
    simp [DomForest.set, h]
  | .cons t ts, n + 1, c => by
    intro h
    simp only [DomForest.get] at h
    simp only [DomForest.set]
    rw [forest_set_get_self ts n c h]

/-- Setting the display at a valid position and then setting it back to the
original display restores the tree. -/
theorem setDisplay_restore : (pos : List Nat) → (root t0 : DomTree) → (s : String) →
    nodeAt root pos = some t0 →
    setDisplayAt (setDisplayAt root pos s) pos t0.data.styleDisplay = root
  | [], root, t0, s => by
    intro h
    simp only [nodeAt] at h
    injection h with h
    subst h
    cases root with
    | mk d cs => simp [setDisplayAt, DomTree.data, DomTree.kids, withDisplay]
  | i :: rest, root, t0, s => by
    intro h
    simp only [nodeAt] at h
    cases root with
    | mk d cs =>
      simp only [DomTree.kids] at h ⊢
      cases hk : cs.get i with
      | none => rw [hk] at h; exact absurd h (by simp)
      | some c =>
        rw [hk] at h
        simp only at h
        simp only [setDisplayAt, DomTree.kids, DomTree.data, hk,
          forest_get_set cs i c _ hk, forest_set_set]
        have hr := setDisplay_restore rest c t0 s h
        cases t0 with
        | mk d0 cs0 =>
          simp only [DomTree.data] at hr
          rw [hr, forest_set_get_self cs i c hk]

/-! ## The claims -/

/-- C1 counterexample: in `elC1` an element matching the fifth selector
precedes, in document order, an element matching the first selector;
`deriveURL` takes the former, while the claimed priority-order rule
would take the latter. -/
theorem deriveURL_priority_counterexample :
    deriveURL elC1 = some (some "later123") ∧
    deriveURLSpecC1 elC1 = some (some "grid456") ∧
    deriveURL elC1 ≠ deriveURLSpecC1 elC1 :=
  ⟨rfl, rfl, by decide⟩

/-- C1 amended: `deriveURL` queries the joined selector list with a single
`querySelector` call, so the first descendant in document (preorder) order
matching **any** selector of the list wins, regardless of the position of
its selector in the list. -/
theorem deriveURL_document_order (el : DomTree) :
    deriveURL el =
      match (descendantsOf el).find? (matchesAny urlSelectors) with
      | none => some none
      | some a =>
        match getAttr a "href" with
        | none => none
        | some href => some (matchV href.data) := by
  rw [deriveURL, qselFirst, qList_eq_find, descendantsOf]

/-- C2 counterexample: on a Video whose cached `viewed` is `true` and whose
subtree holds no progress bar, `getViewed` returns `undefined` but leaves
the `viewed` field untouched, so the result does not overwrite the cache. -/
theorem getViewed_no_overwrite_counterexample :
    (getViewedV vC2 50).1.viewed = some true ∧
    (getViewedV vC2 50).2 = none ∧
    (getViewedV vC2 50).1.viewed ≠ (getViewedV vC2 50).2 :=
  ⟨rfl, rfl, by decide⟩

/-- C2 amended: `getViewed(threshold)` overwrites `this.viewed` exactly when
a progress-bar element is found in the subtree; when none is found it
returns `undefined` before the assignment, leaving the whole state (the
cached `viewed` included) unchanged. -/
theorem getViewed_overwrite_iff_bar (v : VideoState) (t : Int) (el : DomTree)
    (hel : nodeAt v.root v.pos = some el) :
    (qselFirst (matchesAny viewedSelectors) el = none →
       (getViewedV v t).1 = v ∧ (getViewedV v t).2 = none) ∧
    (∀ bar, qselFirst (matchesAny viewedSelectors) el = some bar →
       (getViewedV v t).1.viewed = (getViewedV v t).2 ∧
       (getViewedV v t).2 = some (jsGE (parseIntJS (bar.styleWidth.dropRight 1)) t)) := by
  unfold getViewedV
  rw [hel]
  dsimp only
  constructor
  · intro hb
    rw [hb]
    exact ⟨rfl, rfl⟩
  · intro bar hb
    rw [hb]
    exact ⟨rfl, rfl⟩

theorem getViewed_overwrite_iff_bar_witness :
    (getViewedV vC2 50).1 = vC2 ∧ (getViewedV vC2 50).2 = none :=
  (getViewed_overwrite_iff_bar vC2 50 plainDivEx rfl).1 rfl

/-- C3: when the subtree holds a progress-bar element whose inline width,
with the trailing percent sign stripped, parses to the integer `m`,
`getViewed(threshold)` returns `true` iff `m ≥ threshold`. -/
theorem getViewed_threshold (el : DomTree) (bar : ElemData) (t m : Int)
    (hb : qselFirst (matchesAny viewedSelectors) el = some bar)
    (hm : parseIntJS (bar.styleWidth.dropRight 1) = some m) :
    getViewedRes el t = some (decide (t ≤ m)) := by
  unfold getViewedRes
  rw [hb]
  dsimp only
  rw [hm]
  rfl

/-- The boundary cases of C3: width "50%" against threshold 50 is viewed,
width "49%" against threshold 50 is not. -/
theorem getViewed_threshold_witness :
    getViewedRes containerEx 50 = some true ∧
    getViewedRes container49Ex 50 = some false := by
  constructor
  · have h := getViewed_threshold containerEx bar50Data 50 50 rfl rfl
    simpa using h
  · have h := getViewed_threshold container49Ex bar49Data 50 49 rfl rfl
    simpa using h

/-- C4: `fetchID` sets and returns `derivePath() + deriveURL()` when both
results are truthy, and sets `id` to `undefined` when either side fails to
produce a truthy value — a conjunction, never one side alone. -/
theorem fetchID_conjunction (v : VideoState) (el : DomTree) (u : Option String) (p : String)
    (hel : nodeAt v.root v.pos = some el)
    (hu : deriveURL el = some u)
    (hp : derivePath v.root v.pos = some p) :
    (jsTruthyStr u = true → jsTruthyStr (some p) = true →
       fetchIDV v = some ({ v with id := some (p ++ u.getD "") }, some (p ++ u.getD ""))) ∧
    ((jsTruthyStr u = false ∨ jsTruthyStr (some p) = false) →
       fetchIDV v = some ({ v with id := none }, none)) := by
  unfold fetchIDV fetchIDRes
  rw [hel]
  dsimp only
  rw [hu]
  dsimp only
  rw [hp]
  dsimp only
  constructor
  · intro h1 h2
    rw [h1, h2]
    rfl
  · rintro (h | h) <;> rw [h] <;> simp

theorem fetchID_conjunction_witness :
    fetchIDV vEx = some ({ vEx with id := some "/0/abc123" }, some "/0/abc123") := by
  have h := (fetchID_conjunction vEx containerEx (some "abc123") "/0/" rfl rfl rfl).1 rfl rfl
  simpa using h

/-- C5 counterexample: in `docC5` the parent level carries the identifying
id attribute "container", yet its sibling index 0 still appears in the
path: the code counts at every element level, not only at the levels
without an identifying attribute. -/
theorem derivePath_id_levels_counterexample :
    derivePath docC5 [0, 1] = some "/0/1/" ∧
    derivePathSpecC5 docC5 [0, 1] = some "/1/" ∧
    derivePath docC5 [0, 1] ≠ derivePathSpecC5 docC5 [0, 1] :=
  ⟨rfl, rfl, by decide⟩

/-- C5 amended: `derivePath` walks upward from the wrapped element and
counts preceding siblings at **every** ancestor level whose `id` property
is defined — each element level, with or without an identifying
attribute — stopping at the document node, and produces the sibling
indices outer-to-inner as `/i1/i2/.../in/`. -/
theorem derivePath_counts_every_level (root : DomTree) (pos : List Nat)
    (ls : List (Option String × Nat))
    (hls : levelsAlong root pos = some ls)
    (hall : ∀ x ∈ ls, x.1.isSome = true)
    (hroot : root.data.idProp = none) :
    derivePath root pos = some ("/" ++ pathConcat ls) := by
  unfold derivePath
  rw [hls]
  dsimp only
  have htw : ls.reverse.takeWhile (fun p => p.1.isSome) = ls.reverse := by
    rw [List.takeWhile_eq_self_iff]
    intro x hx
    exact hall x (List.mem_reverse.mp hx)
  rw [htw]
  simp only [if_pos]
  rw [hroot]
  dsimp only
  rw [buildPathLoop_closed]

theorem derivePath_counts_every_level_witness :
    derivePath docC5 [0, 1] =
      some ("/" ++ pathConcat [(some "container", 0), (some "", 1)]) :=
  derivePath_counts_every_level docC5 [0, 1] [(some "container", 0), (some "", 1)]
    rfl (by decide) rfl

/-- C6: `getID` returns a previously memoized truthy `id` without
recomputation; when `id` is `undefined` — in particular right after a
failed `fetchID` — it re-attempts the full derivation via `fetchID`. -/
theorem getID_memoization (v : VideoState) :
    (∀ s, v.id = some s → s ≠ "" → getIDV v = some (v, some s)) ∧
    (v.id = none → getIDV v = fetchIDV v) ∧
    (∀ v2, fetchIDV v = some (v2, none) → getIDV v2 = fetchIDV v2) := by
  refine ⟨?_, ?_, ?_⟩
  · intro s hs hne
    unfold getIDV
    rw [hs]
    simp [jsTruthyStr, hne]
  · intro h
    unfold getIDV
    rw [h]
    simp [jsTruthyStr]
  · intro v2 h
    unfold fetchIDV at h
    cases hr : fetchIDRes v.root v.pos with
    | none => rw [hr] at h; exact absurd h (by simp)
    | some r =>
      rw [hr] at h
      dsimp only at h
      injection h with h
      simp only [Prod.mk.injEq] at h
      have h2 : v2.id = none := by
        rw [← h.1]
        exact h.2
      unfold getIDV
      rw [h2]
      simp [jsTruthyStr]

theorem getID_memoization_witness :
    getIDV vMemoEx = some (vMemoEx, some "/0/abc123") ∧
    getIDV vC6 = fetchIDV vC6 := by
  constructor
  · exact (getID_memoization vMemoEx).1 "/0/abc123" rfl (by decide)
  · exact (getID_memoization vC6).2.1 rfl

/-- C7: constructing a Video, hiding it, and showing it again restores the
tree — in particular the wrapped element's display style — to exactly the
state captured before the hide, because `show` writes back the display
value captured at construction time. -/
theorem hide_show_restores (root : DomTree) (pos : List Nat) (v : VideoState)
    (h : mkVideo root pos = some v) :
    (showV (hideV v)).root = root ∧
    (nodeAt (showV (hideV v)).root pos).map (fun t => t.data.styleDisplay) =
      (nodeAt root pos).map (fun t => t.data.styleDisplay) := by
  unfold mkVideo at h
  cases hel : nodeAt root pos with
  | none => rw [hel] at h; exact absurd h (by simp)
  | some el =>
    rw [hel] at h
    dsimp only [Option.map] at h
    injection h with h
    subst h
    unfold hideV showV
    dsimp only
    have hres := setDisplay_restore pos root el "none" hel
    exact ⟨hres, by rw [hres, hel]⟩

theorem hide_show_restores_witness :
    (showV (hideV vEx)).root = docEx ∧
    (nodeAt (showV (hideV vEx)).root [0]).map (fun t => t.data.styleDisplay) =
      (nodeAt docEx [0]).map (fun t => t.data.styleDisplay) :=
  hide_show_restores docEx [0] vEx rfl

/-- C8: for a fixed subtree, the watched verdict is monotone in the
threshold — whenever `getViewed(t2)` is true and `t1 < t2`, `getViewed(t1)`
is true as well. -/
theorem getViewed_monotone (el : DomTree) (t1 t2 : Int)
    (hlt : t1 < t2) (h2 : getViewedRes el t2 = some true) :
    getViewedRes el t1 = some true := by
  unfold getViewedRes at h2 ⊢
  cases hb : qselFirst (matchesAny viewedSelectors) el with
  | none => rw [hb] at h2; simp at h2
  | some bar =>
    rw [hb] at h2
    dsimp only at h2 ⊢
    cases hp : parseIntJS (bar.styleWidth.dropRight 1) with
    | none => rw [hp] at h2; simp [jsGE] at h2
    | some m =>
      rw [hp] at h2
      simp only [jsGE, Option.some.injEq, decide_eq_true_eq] at h2 ⊢
      omega

theorem getViewed_monotone_witness :
    getViewedRes containerEx 30 = some true :=
  getViewed_monotone containerEx 30 50 (by decide) rfl

/-- C9: inserting the same subextractor reference twice leaves the registry
(and therefore every extraction result) as if it had been inserted once,
and removing a subextractor that is not registered leaves the registry
unchanged. -/
theorem extractor_set_semantics (κ : Type) [DecidableEq κ]
    (e : Extractor κ) (k : κ) (interp : κ → DomTree → List DomTree)
    (root : DomTree) (t : Int) :
    ((e.insert k).insert k = e.insert k ∧
     Extractor.extract interp ((e.insert k).insert k) root t =
       Extractor.extract interp (e.insert k) root t) ∧
    (k ∉ e.subextractors → e.remove k = e) := by
  have hmem : k ∈ (e.insert k).subextractors := by
    by_cases h : k ∈ e.subextractors
    · simp [Extractor.insert, h]
    · simp [Extractor.insert, h]
  have hins : (e.insert k).insert k = e.insert k := by
    have hgen : ∀ e2 : Extractor κ, k ∈ e2.subextractors → e2.insert k = e2 := by
      intro e2 h2
      unfold Extractor.insert
      simp [h2]
    exact hgen (e.insert k) hmem
  refine ⟨⟨hins, by rw [hins]⟩, ?_⟩
  intro hk
  unfold Extractor.remove
  cases e with
  | mk l => simp_all [List.erase_of_not_mem]

theorem extractor_set_semantics_witness :
    ((Extractor.empty Nat).insert 0).insert 0 = (Extractor.empty Nat).insert 0 ∧
    (Extractor.empty Nat).remove 0 = Extractor.empty Nat := by
  have h := extractor_set_semantics Nat (Extractor.empty Nat) 0
    (fun _ r => [r]) docEx 50
  exact ⟨h.1.1, h.2 (by decide)⟩

theorem levelsAlong_of_nodeAt : (pos : List Nat) → (root el : DomTree) →
    nodeAt root pos = some el → ∃ ls, levelsAlong root pos = some ls
  | [], root, el => fun _ => ⟨[], rfl⟩
  | i :: rest, root, el => by
    intro h
    simp only [nodeAt] at h
    cases hk : root.kids.get i with
    | none => rw [hk] at h; exact absurd h (by simp)
    | some c =>
      rw [hk] at h
      simp only at h
      obtain ⟨ls, hls⟩ := levelsAlong_of_nodeAt rest c el h
      exact ⟨(c.data.idProp, i) :: ls, by simp only [levelsAlong, hk, hls, Option.map]⟩

theorem deriveURL_inner_ne_empty (el : DomTree) (s : String)
    (h : deriveURL el = some (some s)) : s ≠ "" := by
  unfold deriveURL at h
  cases hq : qselFirst (matchesAny urlSelectors) el with
  | none => rw [hq] at h; simp at h
  | some a =>
    rw [hq] at h
    dsimp only at h
    cases ha : getAttr a "href" with
    | none => rw [ha] at h; simp at h
    | some href =>
      rw [ha] at h
      dsimp only at h
      injection h with h
      exact matchV_ne_empty href.data s h

/-- C10: for a wrapped element inside a document, `derivePath` always
returns a truthy (non-empty) string that begins and ends with a slash, so
the path side of the legality conjunction always holds and `fetchID`
returns `undefined` exactly when `deriveURL` does. -/
theorem derivePath_always_truthy (root : DomTree) (pos : List Nat)
    (el : DomTree) (u : Option String)
    (hroot : root.data.idProp = none)
    (hel : nodeAt root pos = some el)
    (hu : deriveURL el = some u) :
    ∃ p, derivePath root pos = some p ∧ p ≠ "" ∧
      (∃ m1, p = "/" ++ m1) ∧ (∃ m2, p = m2 ++ "/") ∧
      (fetchIDRes root pos = some none ↔ u = none) := by
  obtain ⟨ls, hls⟩ := levelsAlong_of_nodeAt pos root el hel
  have hshape := buildPathLoop_shape
    (ls.reverse.takeWhile (fun p => p.1.isSome)) "/" "" "" rfl rfl
  obtain ⟨n1, n2, hs1, hs2⟩ := hshape
  have hp : derivePath root pos =
      some (buildPathLoop (ls.reverse.takeWhile (fun p => p.1.isSome)) "/") := by
    unfold derivePath
    rw [hls]
    dsimp only
    split
    · rw [hroot]
    · rfl
  set p := buildPathLoop (ls.reverse.takeWhile (fun q => q.1.isSome)) "/" with hpdef
  have hne : p ≠ "" := by
    intro h0
    rw [h0] at hs1
    have h1 := congrArg String.length hs1
    rw [String.length_append] at h1
    have h2 : ("" : String).length = 0 := rfl
    have h3 : ("/" : String).length = 1 := rfl
    rw [h2, h3] at h1
    omega
  refine ⟨p, hp, hne, ⟨n1, hs1⟩, ⟨n2, hs2⟩, ?_⟩
  unfold fetchIDRes
  rw [hel]
  dsimp only
  rw [hu]
  dsimp only
  rw [hp]
  dsimp only
  cases u with
  | none => simp [jsTruthyStr]
  | some s =>
    have hsne : s ≠ "" := deriveURL_inner_ne_empty el s hu
    simp [jsTruthyStr, hsne, hne]

theorem derivePath_always_truthy_witness :
    ∃ p, derivePath docEx [0] = some p ∧ p ≠ "" ∧
      (∃ m1, p = "/" ++ m1) ∧ (∃ m2, p = m2 ++ "/") ∧
      (fetchIDRes docEx [0] = some none ↔ (some "abc123" : Option String) = none) :=
  derivePath_always_truthy docEx [0] containerEx (some "abc123") rfl rfl rfl
